import Mathlib

/-!
Verification development for the nomad-diner restaurant-search pipeline
(`nomad-diner.py`).

The program is a single sequential pipeline over four external HTTP
collaborators (geocoding, nearby search, place details, directions).  We
embed it shallowly: every collaborator response is an explicit input, JSON
numbers are modelled as exact rationals `ℚ`, fallible Python code
(exceptions) returns `Except`, and the real-valued haversine formula is
modelled over `ℝ`.  Each Lean definition mirrors one Python function of the
source; the pipeline additionally records which collaborator calls it
performed (geocoding, per-candidate ETA lookups) so that "never invokes the
collaborator" claims are statable.
-/

namespace NomadDiner

/-! ### Character classes of the coordinate regex

The source checks coordinate-literal syntax with
`re.match(r'^[-+]?([1-8]?\d(\.\d+)?|90(\.0+)?),\s*[-+]?(180(\.0+)?|((1[0-7]\d)|([1-9]?\d))(\.\d+)?)$', s)`.
We embed the regex as a backtracking matcher: each piece maps an input
suffix to the list of all suffixes remaining after a successful match of
that piece, and the whole string matches when some chain of pieces leaves
an end-of-input remainder (`$` also accepts a single trailing newline).
-/

def isDigitCh (c : Char) : Bool := 48 ≤ c.toNat && c.toNat ≤ 57

def isDigit18 (c : Char) : Bool := 49 ≤ c.toNat && c.toNat ≤ 56

def isDigit19 (c : Char) : Bool := 49 ≤ c.toNat && c.toNat ≤ 57

def isDigit17 (c : Char) : Bool := 48 ≤ c.toNat && c.toNat ≤ 55

/-- Python `\s` on the ASCII range: space, tab, newline, carriage return,
vertical tab, form feed (the inputs at hand are ASCII CLI strings). -/
def isPySpace (c : Char) : Bool :=
  c = ' ' || c = '\t' || c = '\n' || c = '\r' || c = '\x0b' || c = '\x0c'

def isSignCh (c : Char) : Bool := c = '-' || c = '+'

/-- `p?` for a single-character class `p`: remainders after consuming the
optional character. -/
def optChar (p : Char → Bool) (s : List Char) : List (List Char) :=
  match s with
  | [] => [[]]
  | c :: rest => if p c then [rest, c :: rest] else [c :: rest]

/-- `\d+` (one or more digits): all remainders after consuming a nonempty
digit prefix. -/
def digitsPlus : List Char → List (List Char)
  | [] => []
  | c :: rest => if isDigitCh c then rest :: digitsPlus rest else []

/-- `0+` (one or more zeros). -/
def zerosPlus : List Char → List (List Char)
  | [] => []
  | c :: rest => if c = '0' then rest :: zerosPlus rest else []

/-- `(\.\d+)?`. -/
def optFrac (s : List Char) : List (List Char) :=
  s :: (match s with
        | c :: rest => if c = '.' then digitsPlus rest else []
        | [] => [])

/-- `(\.0+)?`. -/
def optZeroFrac (s : List Char) : List (List Char) :=
  s :: (match s with
        | c :: rest => if c = '.' then zerosPlus rest else []
        | [] => [])

/-- `[1-8]?\d`: the integer part of the first latitude alternative. -/
def latIntPart (s : List Char) : List (List Char) :=
  (optChar isDigit18 s).flatMap fun r =>
    match r with
    | c :: rest => if isDigitCh c then [rest] else []
    | [] => []

/-- `([1-8]?\d(\.\d+)?|90(\.0+)?)`: the latitude body. -/
def latBody (s : List Char) : List (List Char) :=
  (latIntPart s).flatMap optFrac ++
    (match s with
     | c :: d :: rest => if c = '9' ∧ d = '0' then optZeroFrac rest else []
     | _ => [])

/-- `((1[0-7]\d)|([1-9]?\d))`: the integer part of the second longitude
alternative. -/
def lonIntPart (s : List Char) : List (List Char) :=
  (match s with
   | a :: c :: d :: rest =>
     if a = '1' ∧ isDigit17 c = true ∧ isDigitCh d = true then [rest] else []
   | _ => []) ++
  (optChar isDigit19 s).flatMap fun r =>
    match r with
    | c :: rest => if isDigitCh c then [rest] else []
    | [] => []

/-- `(180(\.0+)?|((1[0-7]\d)|([1-9]?\d))(\.\d+)?)`: the longitude body. -/
def lonBody (s : List Char) : List (List Char) :=
  (match s with
   | a :: b :: c :: rest => if a = '1' ∧ b = '8' ∧ c = '0' then optZeroFrac rest else []
   | _ => []) ++
  (lonIntPart s).flatMap optFrac

/-- `\s*`: all remainders after consuming a (possibly empty) run of
whitespace. -/
def wsStar (s : List Char) : List (List Char) :=
  s :: (match s with
        | c :: rest => if isPySpace c then wsStar rest else []
        | [] => [])

/-- `$` of Python `re`: end of string, or just before one trailing
newline. -/
def atEnd (s : List Char) : Bool := s = [] || s = ['\n']

/-- `,\s*[-+]?(...)`: the comma and everything after it. -/
def afterLat (s : List Char) : List (List Char) :=
  match s with
  | c :: rest =>
    if c = ',' then ((wsStar rest).flatMap (optChar isSignCh)).flatMap lonBody else []
  | [] => []

/-- `is_coordinate` of the source: does the whole string match the
anchored coordinate regex? -/
def is_coordinate (input_str : String) : Bool :=
  (((optChar isSignCh input_str.toList).flatMap latBody).flatMap afterLat).any atEnd

/-! ### Python `float` and `str.split` on the shapes at hand -/

/-- Numeric value of a digit list read in base 10 (Python int semantics on
digit strings). -/
def digitsVal (l : List Char) : ℕ :=
  l.foldl (fun acc c => 10 * acc + (c.toNat - 48)) 0

/-- Unsigned decimal literal: `digits`, `digits.digits`, `digits.` or
`.digits` (the forms Python `float` accepts apart from exponents,
underscores and the inf/nan words, which coordinate strings never use). -/
def parseDec (l : List Char) : Option ℚ :=
  let ip := l.takeWhile isDigitCh
  match l.dropWhile isDigitCh with
  | [] => if ip = [] then none else some (digitsVal ip)
  | c :: fp =>
    if c = '.' ∧ fp.all isDigitCh = true ∧ (ip ≠ [] ∨ fp ≠ []) then
      some ((digitsVal ip : ℚ) + (digitsVal fp : ℚ) / (10 : ℚ) ^ fp.length)
    else none

/-- Optional sign in front of a decimal literal. -/
def parseSigned (l : List Char) : Option ℚ :=
  match l with
  | c :: rest =>
    if c = '+' then parseDec rest
    else if c = '-' then (parseDec rest).map (fun q => -q)
    else parseDec (c :: rest)
  | [] => parseDec []

/-- The whitespace stripping Python `float` performs on its argument. -/
def stripPyWs (s : List Char) : List Char :=
  ((s.dropWhile isPySpace).reverse.dropWhile isPySpace).reverse

/-- Python `float(s)`: strip surrounding whitespace, then read an optionally
signed decimal literal; `none` models the `ValueError`. -/
def pyFloat (s : List Char) : Option ℚ :=
  parseSigned (stripPyWs s)

/-- Python `str.split(sep)` for a one-character separator: split at every
occurrence, keeping empty pieces. -/
def splitOnChar (sep : Char) : List Char → List (List Char)
  | [] => [[]]
  | c :: rest =>
    if c = sep then [] :: splitOnChar sep rest
    else
      match splitOnChar sep rest with
      | h :: t => (c :: h) :: t
      | [] => [[c]]

/-- `lat, lng = map(float, location.split(","))`: succeeds exactly when the
split yields two pieces and both parse as floats (`none` models the
`ValueError` from `float` or from unpacking). -/
def parseCoordinate (location : String) : Option (ℚ × ℚ) :=
  match (splitOnChar ',' location.toList).map pyFloat with
  | [some a, some b] => some (a, b)
  | _ => none

/-! ### Collaborator responses and the data model

JSON numbers are exact rationals; a JSON field that may be absent is an
`Option`.  In the rendered output dict, an absent optional field appears as
the string `"N/A"`, which we model as `none`.
-/

/-- One candidate of the geocoding response: we keep only the part the
source reads, `result['geometry']['location']`. -/
structure GeocodeResult where
  location : ℚ × ℚ
deriving DecidableEq, Repr

/-- Response of the geocoding collaborator. -/
structure GeocodeResponse where
  status : String
  results : List GeocodeResult
deriving DecidableEq, Repr

/-- Python exceptions that can escape the functions we model. -/
inductive RunError where
  /-- the `ValueError` raised by `get_location_coordinates`, carrying the
  collaborator's response (`json.dumps(response)` in the message) -/
  | resolution (resp : GeocodeResponse)
  /-- `response['results'][0]` on an empty list -/
  | indexError
  /-- `ValueError` from `float()` / tuple unpacking in the coordinate
  branch -/
  | floatError
deriving DecidableEq, Repr

/-- `get_location_coordinates` of the source: non-`'OK'` status raises the
`ValueError` carrying the response; otherwise the first result's
coordinate is returned (`results[0]` raises `IndexError` when empty). -/
def get_location_coordinates (response : GeocodeResponse) : Except RunError (ℚ × ℚ) :=
  if response.status ≠ "OK" then .error (.resolution response)
  else
    match response.results with
    | [] => .error .indexError
    | r :: _ => .ok r.location

deriving instance DecidableEq for Except

/-- Outcome of the location-resolution step, together with the number of
geocoding-collaborator calls it performed. -/
structure Resolution where
  geocodeCalls : ℕ
  coord : Except RunError (ℚ × ℚ)
deriving DecidableEq, Repr

/-- The resolution step at the top of `get_nearby_restaurants`:
`if is_coordinate(location): lat, lng = map(float, location.split(","))`
`else: lat, lng = get_location_coordinates(location)`.
`geocoder` is the response the geocoding collaborator would return. -/
def resolveLocation (location : String) (geocoder : GeocodeResponse) : Resolution :=
  if is_coordinate location then
    { geocodeCalls := 0
      coord :=
        match parseCoordinate location with
        | some c => .ok c
        | none => .error .floatError }
  else
    { geocodeCalls := 1, coord := get_location_coordinates geocoder }

/-- One stub of the nearby-search response: the source reads
`result['place_id']` and `result['geometry']['location']`. -/
structure PlaceCandidate where
  place_id : String
  location : ℚ × ℚ
deriving DecidableEq, Repr

/-- Response of the nearby-search collaborator. -/
structure SearchResponse where
  status : String
  results : List PlaceCandidate
deriving DecidableEq, Repr

/-- The detail record of one place (`details_res['result']`); `name` is
accessed unconditionally, every other field through `.get` with a
default. -/
structure PlaceDetails where
  name : String
  rating : Option ℚ
  user_ratings_total : Option ℤ
  price_level : Option ℤ
  formatted_address : Option String
  formatted_phone_number : Option String
  website : Option String
  editorial_summary : Option String
deriving DecidableEq, Repr

/-- The output dict built for one accepted restaurant.  `none` in an
`Option` field models the `"N/A"` (or `None` for the ETA) default. -/
structure ResultRecord where
  name : String
  rating : Option ℚ
  numberOfRatings : Option ℤ
  priceLevelDisplay : String
  address : Option String
  phoneNumber : Option String
  website : Option String
  summary : Option String
  drivingEta : Option String
  haversineDistance : ℤ
deriving DecidableEq, Repr

/-! ### Python helpers used by the pipeline -/

/-- Python truthiness of an optional float (`None` and `0.0` are falsy). -/
def pyTruthyQ : Option ℚ → Bool
  | none => false
  | some q => q ≠ 0

/-- Python truthiness of an optional int (`None` and `0` are falsy). -/
def pyTruthyZ : Option ℤ → Bool
  | none => false
  | some z => z ≠ 0

/-- Python `round` on a rational value: nearest integer, ties to even. -/
def pyRound (q : ℚ) : ℤ :=
  if q - q.floor < 1 / 2 then q.floor
  else if 1 / 2 < q - q.floor then q.floor + 1
  else if 2 ∣ q.floor then q.floor else q.floor + 1

/-! ### The Place Search Pipeline -/

/-- The filter/enrichment criteria of `get_nearby_restaurants`, with the
source's default arguments.  `max_results` is a Python int, so `ℤ`;
`eta_threshold` is `None` when the CLI flag is absent. -/
structure SearchCriteria where
  min_rating : Option ℚ := none
  max_price : Option ℤ := none
  max_results : ℤ := 25
  get_eta : Bool := false
  eta_threshold : Option ℤ := some 0
deriving DecidableEq, Repr

/-- The per-candidate collaborators of the pipeline: the place-details
lookup keyed by place id, the Distance Calculator, and the Travel-Time
Fetcher's result for an origin/destination pair. -/
structure PipelineEnv where
  detailsOf : String → PlaceDetails
  distFn : ℚ × ℚ → ℚ × ℚ → ℚ
  etaOf : ℚ × ℚ → ℚ × ℚ → Option String

/-- `if min_rating and float(details.get('rating', 0)) < min_rating:
continue`. -/
def ratingSkip (min_rating : Option ℚ) (details : PlaceDetails) : Bool :=
  pyTruthyQ min_rating && decide (details.rating.getD 0 < min_rating.getD 0)

/-- `if max_price and details.get('price_level', 5) > max_price:
continue`. -/
def priceSkip (max_price : Option ℤ) (details : PlaceDetails) : Bool :=
  pyTruthyZ max_price && decide (details.price_level.getD 5 > max_price.getD 0)

/-- `get_eta and (not eta_threshold or straight_distance > eta_threshold)`. -/
def etaCondition (get_eta : Bool) (eta_threshold : Option ℤ) (straight_distance : ℚ) : Bool :=
  get_eta && (!pyTruthyZ eta_threshold ||
    decide (straight_distance > ((eta_threshold.getD 0 : ℤ) : ℚ)))

/-- The `restaurant = { ... }` dict of the source. -/
def mkRecord (details : PlaceDetails) (driving_eta : Option String)
    (rounded_distance : ℤ) : ResultRecord :=
  { name := details.name
    rating := details.rating
    numberOfRatings := details.user_ratings_total
    priceLevelDisplay := String.mk (List.replicate (details.price_level.getD 0).toNat '$')
    address := details.formatted_address
    phoneNumber := details.formatted_phone_number
    website := details.website
    summary := details.editorial_summary
    drivingEta := driving_eta
    haversineDistance := rounded_distance }

/-- What the loop body produced for one accepted candidate; `etaLookup`
records whether `get_driving_eta` was invoked for it. -/
structure AcceptedEntry where
  candidate : PlaceCandidate
  record : ResultRecord
  etaLookup : Bool
deriving DecidableEq, Repr

/-- One iteration of the loop body after the cap check: details lookup,
the two filters, distance, conditional ETA, record assembly.  `none`
means the candidate was skipped by a filter. -/
def processCandidate (env : PipelineEnv) (crit : SearchCriteria)
    (origin : ℚ × ℚ) (c : PlaceCandidate) : Option AcceptedEntry :=
  let details := env.detailsOf c.place_id
  if ratingSkip crit.min_rating details then none
  else if priceSkip crit.max_price details then none
  else
    let straight_distance := env.distFn origin c.location
    let rounded_distance := pyRound (straight_distance / 10) * 10
    let doEta := etaCondition crit.get_eta crit.eta_threshold straight_distance
    let driving_eta := if doEta then env.etaOf origin c.location else none
    some { candidate := c
           record := mkRecord details driving_eta rounded_distance
           etaLookup := doEta }

/-- The `for result in res['results']` loop; `accepted` models
`len(restaurant_details)`, and the `break` fires when it equals
`max_results`. -/
def searchLoop (env : PipelineEnv) (crit : SearchCriteria) (origin : ℚ × ℚ) :
    List PlaceCandidate → ℕ → List AcceptedEntry
  | [], _ => []
  | c :: rest, accepted =>
    if (accepted : ℤ) = crit.max_results then []
    else
      match processCandidate env crit origin c with
      | none => searchLoop env crit origin rest accepted
      | some e => e :: searchLoop env crit origin rest (accepted + 1)

/-- Result of one pipeline invocation: the geocoding-call count of the
resolution step and either an uncaught exception or the accepted
entries (whose records form the returned list, in order). -/
structure PipelineRun where
  geocodeCalls : ℕ
  outcome : Except RunError (List AcceptedEntry)
deriving DecidableEq, Repr

/-- `get_nearby_restaurants`: resolve the location, issue the nearby
search, then filter/enrich/cap the candidates.  A non-`'OK'` search status
returns the empty list. -/
def get_nearby_restaurants (location : String) (geocoder : GeocodeResponse)
    (searchResponse : SearchResponse) (env : PipelineEnv)
    (crit : SearchCriteria) : PipelineRun :=
  { geocodeCalls := (resolveLocation location geocoder).geocodeCalls
    outcome :=
      match (resolveLocation location geocoder).coord with
      | .error e => .error e
      | .ok origin =>
        if searchResponse.status ≠ "OK" then .ok []
        else .ok (searchLoop env crit origin searchResponse.results 0) }

/-- The records of a pipeline outcome, i.e. the list the Python function
returns. -/
def returnedRecords (entries : List AcceptedEntry) : List ResultRecord :=
  entries.map (·.record)

/-! ### The Travel-Time Fetcher -/

/-- `leg['duration']['text']` is all the source reads of a leg. -/
structure RouteLeg where
  duration_text : String
deriving DecidableEq, Repr

/-- One route of the directions response. -/
structure Route where
  legs : List RouteLeg
deriving DecidableEq, Repr

/-- Response of the directions collaborator; an absent `routes` key is
modelled as the empty list (both are falsy under `eta_res.get('routes')`). -/
structure DirectionsResponse where
  status : String
  routes : List Route
deriving DecidableEq, Repr

/-- Exception that can escape `get_driving_eta`. -/
inductive EtaError where
  /-- `['legs'][0]` on a route with no legs -/
  | indexError
deriving DecidableEq, Repr

/-- `get_driving_eta` of the source, over the directions collaborator's
response: `None` on non-`'OK'` status or an empty/absent route list, else
the first leg's human-readable duration text. -/
def get_driving_eta (eta_res : DirectionsResponse) : Except EtaError (Option String) :=
  if eta_res.status ≠ "OK" ∨ eta_res.routes = [] then .ok none
  else
    match eta_res.routes with
    | [] => .error .indexError
    | r :: _ =>
      match r.legs with
      | [] => .error .indexError
      | leg :: _ => .ok (some leg.duration_text)

/-! ### The Distance Calculator

`haversine_distance` computes with `math` floating point; we model it over
the reals. -/

/-- `math.radians`. -/
noncomputable def radians (x : ℝ) : ℝ := x * Real.pi / 180

/-- `math.atan2 y x`. -/
noncomputable def atan2 (y x : ℝ) : ℝ :=
  if 0 < x then Real.arctan (y / x)
  else if x < 0 ∧ 0 ≤ y then Real.arctan (y / x) + Real.pi
  else if x < 0 ∧ y < 0 then Real.arctan (y / x) - Real.pi
  else if x = 0 ∧ 0 < y then Real.pi / 2
  else if x = 0 ∧ y < 0 then -(Real.pi / 2)
  else 0

/-- `haversine_distance` of the source: the haversine formula with Earth
radius 6371008.8 m. -/
noncomputable def haversine_distance (coord1 coord2 : ℝ × ℝ) : ℝ :=
  let R : ℝ := 6371008.8
  let lat1 := radians coord1.1
  let lon1 := radians coord1.2
  let lat2 := radians coord2.1
  let lon2 := radians coord2.2
  let dlat := lat2 - lat1
  let dlon := lon2 - lon1
  let a := Real.sin (dlat / 2) ^ 2 +
    Real.cos lat1 * Real.cos lat2 * Real.sin (dlon / 2) ^ 2
  let c := 2 * atan2 (Real.sqrt a) (Real.sqrt (1 - a))
  R * c

/-! ### Concrete fixtures for the example runs -/

/-- A detail record with only the required `name` field present. -/
def dummyDetails : PlaceDetails :=
  { name := "Cafe"
    rating := none
    user_ratings_total := none
    price_level := none
    formatted_address := none
    formatted_phone_number := none
    website := none
    editorial_summary := none }

/-- Collaborator fixture: bare details, zero distances, no ETA text. -/
def envA : PipelineEnv :=
  { detailsOf := fun _ => dummyDetails
    distFn := fun _ _ => 0
    etaOf := fun _ _ => none }

/-- Collaborator fixture for the ETA-threshold scenario: the straight-line
distance of a candidate is its first coordinate, and every ETA lookup
answers "10 mins". -/
def envB : PipelineEnv :=
  { detailsOf := fun _ => dummyDetails
    distFn := fun _ dest => dest.1
    etaOf := fun _ _ => some "10 mins" }

/-- A candidate stub used in the concrete runs. -/
def candA : PlaceCandidate := ⟨"a", (1, 1)⟩

/-- The entry the pipeline produces for `candA` under `envA` with no
filters and no ETA flag. -/
def entryA : AcceptedEntry := ⟨candA, mkRecord dummyDetails none 0, false⟩

/-- Entry of the 400 m candidate in the ETA scenario: below the 1000 m
threshold, so no ETA lookup. -/
def entry400 : AcceptedEntry := ⟨⟨"a", (400, 0)⟩, mkRecord dummyDetails none 400, false⟩

/-- Entry of the 1200 m candidate in the ETA scenario: above the 1000 m
threshold, so the ETA lookup runs and stores its answer. -/
def entry1200 : AcceptedEntry :=
  ⟨⟨"b", (1200, 0)⟩, mkRecord dummyDetails (some "10 mins") 1200, true⟩

/-! ### Shape predicates used to reason about the coordinate regex

A successful match of either numeric body of the regex consumes a prefix
that is a nonempty digit string, optionally followed by a dot and a
nonempty digit string — exactly a decimal literal Python `float`
accepts. -/

/-- The consumed prefix of a numeric body of the regex. -/
def NumShape (pre : List Char) : Prop :=
  (pre ≠ [] ∧ ∀ c ∈ pre, isDigitCh c = true) ∨
  (∃ ip fp, pre = ip ++ '.' :: fp ∧ ip ≠ [] ∧ (∀ c ∈ ip, isDigitCh c = true) ∧
    fp ≠ [] ∧ (∀ c ∈ fp, isDigitCh c = true))

/-- The consumed prefix of an `[-+]?` piece. -/
def SignShape (sg : List Char) : Prop :=
  sg = [] ∨ ∃ c, isSignCh c = true ∧ sg = [c]

/-!
## Theorems

The claims below are stated against the definitions above; the helper
lemmas come first.
-/

section Lemmas

lemma ratingSkip_some_zero (d : PlaceDetails) : ratingSkip (some 0) d = false := by
  simp [ratingSkip, pyTruthyQ]

lemma ratingSkip_none (d : PlaceDetails) : ratingSkip none d = false := rfl

lemma priceSkip_some_zero (d : PlaceDetails) : priceSkip (some 0) d = false := by
  simp [priceSkip, pyTruthyZ]

lemma priceSkip_none (d : PlaceDetails) : priceSkip none d = false := rfl

lemma processCandidate_min_zero (env : PipelineEnv) (mp : Option ℤ) (N : ℤ)
    (ge : Bool) (th : Option ℤ) (origin : ℚ × ℚ) (c : PlaceCandidate) :
    processCandidate env ⟨some 0, mp, N, ge, th⟩ origin c =
      processCandidate env ⟨none, mp, N, ge, th⟩ origin c := by
  simp [processCandidate, ratingSkip_some_zero, ratingSkip_none]

lemma processCandidate_max_zero (env : PipelineEnv) (mr : Option ℚ) (N : ℤ)
    (ge : Bool) (th : Option ℤ) (origin : ℚ × ℚ) (c : PlaceCandidate) :
    processCandidate env ⟨mr, some 0, N, ge, th⟩ origin c =
      processCandidate env ⟨mr, none, N, ge, th⟩ origin c := by
  simp [processCandidate, priceSkip_some_zero, priceSkip_none]

lemma searchLoop_ext {env : PipelineEnv} {crit crit' : SearchCriteria} {origin : ℚ × ℚ}
    (hN : crit.max_results = crit'.max_results)
    (hproc : ∀ c, processCandidate env crit origin c = processCandidate env crit' origin c) :
    ∀ (cands : List PlaceCandidate) (accepted : ℕ),
      searchLoop env crit origin cands accepted = searchLoop env crit' origin cands accepted := by
  intro cands
  induction cands with
  | nil => intro accepted; rfl
  | cons c rest ih =>
    intro accepted
    simp only [searchLoop, hN, hproc]
    split
    · rfl
    · cases hp : processCandidate env crit' origin c <;> simp [hp, ih]

lemma get_nearby_ext {location : String} {geocoder : GeocodeResponse}
    {searchResponse : SearchResponse} {env : PipelineEnv} {crit crit' : SearchCriteria}
    (hN : crit.max_results = crit'.max_results)
    (hproc : ∀ origin c, processCandidate env crit origin c = processCandidate env crit' origin c) :
    get_nearby_restaurants location geocoder searchResponse env crit =
      get_nearby_restaurants location geocoder searchResponse env crit' := by
  unfold get_nearby_restaurants
  cases hco : (resolveLocation location geocoder).coord with
  | error e => rfl
  | ok origin =>
    by_cases hst : searchResponse.status ≠ "OK"
    · simp [hst]
    · rw [not_ne_iff] at hst
      simp [hst, searchLoop_ext hN (hproc origin) searchResponse.results 0]

end Lemmas

/-- C10: passing `0` for a filter criterion disables the filter entirely:
with `min_rating = 0` the pipeline behaves exactly as with
`min_rating = None`, and with `max_price = 0` exactly as with
`max_price = None`, because each filter first tests the truthiness of its
criterion. -/
theorem claim10_zero_disables_filters (location : String) (geocoder : GeocodeResponse)
    (searchResponse : SearchResponse) (env : PipelineEnv) (mr : Option ℚ)
    (mp : Option ℤ) (N : ℤ) (ge : Bool) (th : Option ℤ) :
    get_nearby_restaurants location geocoder searchResponse env ⟨some 0, mp, N, ge, th⟩ =
      get_nearby_restaurants location geocoder searchResponse env ⟨none, mp, N, ge, th⟩ ∧
    get_nearby_restaurants location geocoder searchResponse env ⟨mr, some 0, N, ge, th⟩ =
      get_nearby_restaurants location geocoder searchResponse env ⟨mr, none, N, ge, th⟩ :=
  ⟨get_nearby_ext rfl (fun origin c => processCandidate_min_zero env mp N ge th origin c),
   get_nearby_ext rfl (fun origin c => processCandidate_max_zero env mr N ge th origin c)⟩

/-- C9: the Distance Calculator is symmetric and zero on identical points;
it is a total function on real coordinates (haversine formula, Earth
radius 6371008.8 m). -/
theorem claim9_haversine_symm_zero (a b : ℝ × ℝ) :
    haversine_distance a b = haversine_distance b a ∧ haversine_distance a a = 0 := by
  have hsin : ∀ x y : ℝ, Real.sin ((x - y) / 2) ^ 2 = Real.sin ((y - x) / 2) ^ 2 := by
    intro x y
    rw [show (x - y) / 2 = -((y - x) / 2) by ring, Real.sin_neg]
    ring
  constructor
  · simp only [haversine_distance]
    rw [hsin (radians b.1) (radians a.1), hsin (radians b.2) (radians a.2),
      mul_comm (Real.cos (radians a.1)) (Real.cos (radians b.1))]
  · simp only [haversine_distance, sub_self]
    norm_num [atan2, Real.arctan_zero]

/-- C7: the Travel-Time Fetcher returns `None` (without raising) whenever
the directions collaborator reports a non-success status or an
empty/absent route list, and on success returns the collaborator's
human-readable duration text. -/
theorem claim7_driving_eta_contract (eta_res : DirectionsResponse) :
    ((eta_res.status ≠ "OK" ∨ eta_res.routes = []) →
      get_driving_eta eta_res = .ok none) ∧
    (∀ route rest leg legs, eta_res.status = "OK" → eta_res.routes = route :: rest →
      route.legs = leg :: legs →
      get_driving_eta eta_res = .ok (some leg.duration_text)) := by
  constructor
  · intro h
    simp [get_driving_eta, h]
  · intro route rest leg legs hst hroutes hlegs
    simp [get_driving_eta, hst, hroutes, hlegs]

/-- Witness for C7 at concrete responses. -/
theorem claim7_witness :
    get_driving_eta ⟨"ZERO_RESULTS", []⟩ = .ok none ∧
    get_driving_eta ⟨"OK", [⟨[⟨"12 mins"⟩]⟩]⟩ = .ok (some "12 mins") :=
  ⟨(claim7_driving_eta_contract _).1 (Or.inr rfl),
   (claim7_driving_eta_contract _).2 ⟨[⟨"12 mins"⟩]⟩ [] ⟨"12 mins"⟩ [] rfl rfl rfl⟩

/-- C8: for a free-text (non-coordinate-literal) input the Location
Resolver calls the geocoder once; it fails with the `ValueError` carrying
the collaborator's response exactly when the status is non-success, and on
success returns the first candidate's coordinate. -/
theorem claim8_free_text_resolution (location : String) (geocoder : GeocodeResponse)
    (h : is_coordinate location = false) :
    (resolveLocation location geocoder).geocodeCalls = 1 ∧
    (geocoder.status ≠ "OK" ↔
      (resolveLocation location geocoder).coord = .error (.resolution geocoder)) ∧
    (∀ r rest, geocoder.status = "OK" → geocoder.results = r :: rest →
      (resolveLocation location geocoder).coord = .ok r.location) := by
  have hres : resolveLocation location geocoder =
      { geocodeCalls := 1, coord := get_location_coordinates geocoder } := by
    simp [resolveLocation, h]
  rw [hres]
  refine ⟨rfl, ⟨?_, ?_⟩, ?_⟩
  · intro hst
    simp [get_location_coordinates, hst]
  · intro heq
    by_contra hOK
    cases hr : geocoder.results <;> simp [get_location_coordinates, hOK, hr] at heq
  · intro r rest hst hr
    simp [get_location_coordinates, hst, hr]

/-- Witness for C8: a denied geocode fails with the payload, a successful
one returns the first candidate, and the geocoder is called once. -/
theorem claim8_witness :
    (resolveLocation "Paris" ⟨"REQUEST_DENIED", []⟩).coord =
      .error (.resolution ⟨"REQUEST_DENIED", []⟩) ∧
    (resolveLocation "Paris" ⟨"OK", [⟨(5, 6)⟩, ⟨(7, 8)⟩]⟩).coord = .ok (5, 6) ∧
    (resolveLocation "Paris" ⟨"OK", [⟨(5, 6)⟩, ⟨(7, 8)⟩]⟩).geocodeCalls = 1 :=
  ⟨(claim8_free_text_resolution "Paris" _ (by decide)).2.1.mp (by decide),
   (claim8_free_text_resolution "Paris" _ (by decide)).2.2 ⟨(5, 6)⟩ [⟨(7, 8)⟩] rfl rfl,
   (claim8_free_text_resolution "Paris" _ (by decide)).1⟩

/-- C6: a non-success nearby-search status makes the pipeline return the
empty list — a normal outcome (`ok`, no exception), with no per-candidate
processing (the result does not depend on the per-candidate
collaborators `env`). -/
theorem claim6_non_ok_search_empty (location : String) (geocoder : GeocodeResponse)
    (searchResponse : SearchResponse) (env : PipelineEnv) (crit : SearchCriteria)
    (origin : ℚ × ℚ)
    (hres : (resolveLocation location geocoder).coord = .ok origin)
    (hst : searchResponse.status ≠ "OK") :
    get_nearby_restaurants location geocoder searchResponse env crit =
      { geocodeCalls := (resolveLocation location geocoder).geocodeCalls
        outcome := .ok [] } := by
  simp [get_nearby_restaurants, hres, hst]

/-- Witness for C6: a `ZERO_RESULTS` search yields `[]` even though the
response carries a candidate stub. -/
theorem claim6_witness :
    get_nearby_restaurants "0,0" ⟨"OK", []⟩ ⟨"ZERO_RESULTS", [⟨"p1", (1, 2)⟩]⟩ envA {} =
      ⟨0, .ok []⟩ :=
  (claim6_non_ok_search_empty "0,0" ⟨"OK", []⟩ ⟨"ZERO_RESULTS", [⟨"p1", (1, 2)⟩]⟩ envA {}
    (0, 0) (by decide) (by decide)).trans (by decide)

/-! ### The candidate loop: characterization lemmas -/

lemma searchLoop_take (env : PipelineEnv) (crit : SearchCriteria) (origin : ℚ × ℚ) :
    ∀ (cands : List PlaceCandidate) (accepted : ℕ),
      (accepted : ℤ) ≤ crit.max_results →
      searchLoop env crit origin cands accepted =
        (cands.filterMap (processCandidate env crit origin)).take
          (crit.max_results - accepted).toNat := by
  intro cands
  induction cands with
  | nil => intro accepted h; simp [searchLoop]
  | cons c rest ih =>
    intro accepted h
    by_cases hcap : (accepted : ℤ) = crit.max_results
    · have h0 : (crit.max_results - accepted).toNat = 0 := by omega
      simp [searchLoop, hcap, h0]
    · cases hp : processCandidate env crit origin c with
      | none => simp [searchLoop, hcap, hp, ih accepted h]
      | some e =>
        have hsucc : ((accepted + 1 : ℕ) : ℤ) ≤ crit.max_results := by push_cast; omega
        have htn : (crit.max_results - accepted).toNat =
            (crit.max_results - (accepted + 1 : ℕ)).toNat + 1 := by push_cast; omega
        simp [searchLoop, hcap, hp, ih (accepted + 1) hsucc, htn]

lemma searchLoop_mem {env : PipelineEnv} {crit : SearchCriteria} {origin : ℚ × ℚ} :
    ∀ {cands : List PlaceCandidate} {accepted : ℕ} {e : AcceptedEntry},
      e ∈ searchLoop env crit origin cands accepted →
      ∃ c ∈ cands, processCandidate env crit origin c = some e := by
  intro cands
  induction cands with
  | nil => intro accepted e h; simp [searchLoop] at h
  | cons c rest ih =>
    intro accepted e h
    simp only [searchLoop] at h
    split at h
    · simp at h
    · cases hp : processCandidate env crit origin c with
      | none =>
        rw [hp] at h
        obtain ⟨c', hc', he⟩ := ih h
        exact ⟨c', List.mem_cons_of_mem _ hc', he⟩
      | some e' =>
        rw [hp] at h
        rcases List.mem_cons.mp h with rfl | h'
        · exact ⟨c, List.mem_cons_self _ _, hp⟩
        · obtain ⟨c', hc', he⟩ := ih h'
          exact ⟨c', List.mem_cons_of_mem _ hc', he⟩

lemma processCandidate_some_spec {env : PipelineEnv} {crit : SearchCriteria}
    {origin : ℚ × ℚ} {c : PlaceCandidate} {e : AcceptedEntry}
    (h : processCandidate env crit origin c = some e) :
    ratingSkip crit.min_rating (env.detailsOf c.place_id) = false ∧
    priceSkip crit.max_price (env.detailsOf c.place_id) = false ∧
    e.candidate = c ∧
    e.etaLookup = etaCondition crit.get_eta crit.eta_threshold (env.distFn origin c.location) ∧
    e.record = mkRecord (env.detailsOf c.place_id)
      (if etaCondition crit.get_eta crit.eta_threshold (env.distFn origin c.location)
        then env.etaOf origin c.location else none)
      (pyRound (env.distFn origin c.location / 10) * 10) := by
  simp only [processCandidate] at h
  split at h
  · simp at h
  · split at h
    · simp at h
    · rename_i h1 h2
      rw [Option.some_inj] at h
      subst h
      exact ⟨Bool.not_eq_true _ ▸ h1, Bool.not_eq_true _ ▸ h2, rfl, rfl, rfl⟩

/-- Every entry of a successful run comes from a candidate of the search
response that passed the filters. -/
lemma outcome_entries_mem {location : String} {geocoder : GeocodeResponse}
    {searchResponse : SearchResponse} {env : PipelineEnv} {crit : SearchCriteria}
    {origin : ℚ × ℚ} {entries : List AcceptedEntry}
    (hres : (resolveLocation location geocoder).coord = .ok origin)
    (h : (get_nearby_restaurants location geocoder searchResponse env crit).outcome =
      .ok entries) :
    ∀ e ∈ entries,
      ∃ c ∈ searchResponse.results, processCandidate env crit origin c = some e := by
  simp only [get_nearby_restaurants, hres] at h
  by_cases hst : searchResponse.status ≠ "OK"
  · rw [if_pos hst] at h
    obtain rfl : ([] : List AcceptedEntry) = entries := by simpa using h
    intro e he
    simp at he
  · rw [if_neg hst] at h
    have hloop : searchLoop env crit origin searchResponse.results 0 = entries := by
      simpa using h
    intro e he
    exact searchLoop_mem (hloop ▸ he)

/-- C1: the pipeline never returns more than `max_results` records, and the
cap counts accepted post-filter records: the entries are exactly the first
`max_results` elements of the filtered candidate sequence. -/
theorem claim1_max_results_cap (location : String) (geocoder : GeocodeResponse)
    (searchResponse : SearchResponse) (env : PipelineEnv) (crit : SearchCriteria)
    (origin : ℚ × ℚ) (entries : List AcceptedEntry)
    (hres : (resolveLocation location geocoder).coord = .ok origin)
    (hN : 0 < crit.max_results)
    (h : (get_nearby_restaurants location geocoder searchResponse env crit).outcome =
      .ok entries) :
    ((returnedRecords entries).length : ℤ) ≤ crit.max_results ∧
    (searchResponse.status = "OK" →
      entries = (searchResponse.results.filterMap (processCandidate env crit origin)).take
        crit.max_results.toNat) := by
  simp only [get_nearby_restaurants, hres] at h
  by_cases hst : searchResponse.status ≠ "OK"
  · rw [if_pos hst] at h
    obtain rfl : ([] : List AcceptedEntry) = entries := by simpa using h
    exact ⟨by simp [returnedRecords]; omega, fun hOK => absurd hOK hst⟩
  · rw [if_neg hst] at h
    have hloop : searchLoop env crit origin searchResponse.results 0 = entries := by
      simpa using h
    rw [searchLoop_take env crit origin searchResponse.results 0 (by omega)] at hloop
    have hzero : ((crit.max_results - ((0 : ℕ) : ℤ)).toNat) = crit.max_results.toNat := by
      omega
    rw [hzero] at hloop
    constructor
    · rw [returnedRecords, List.length_map, ← hloop, List.length_take]
      omega
    · exact fun _ => hloop.symm

/-- Witness for C1: three candidates, `max_results = 2`, no filters — the
run accepts exactly the first two. -/
theorem claim1_witness :
    ((returnedRecords [entryA, entryA]).length : ℤ) ≤ 2 ∧
    [entryA, entryA] =
      (([candA, candA, candA]).filterMap
        (processCandidate envA ⟨none, none, 2, false, some 0⟩ (0, 0))).take 2 := by
  have hres : (resolveLocation "0,0" (⟨"OK", []⟩ : GeocodeResponse)).coord = .ok (0, 0) := by
    decide
  have h : (get_nearby_restaurants "0,0" ⟨"OK", []⟩ ⟨"OK", [candA, candA, candA]⟩ envA
      ⟨none, none, 2, false, some 0⟩).outcome = .ok [entryA, entryA] := by
    norm_num [get_nearby_restaurants, hres, searchLoop, processCandidate, ratingSkip,
      priceSkip, etaCondition, mkRecord, pyRound, Rat.floor, envA, candA, entryA,
      dummyDetails, pyTruthyQ, pyTruthyZ]
  have H := claim1_max_results_cap "0,0" ⟨"OK", []⟩ ⟨"OK", [candA, candA, candA]⟩ envA
    ⟨none, none, 2, false, some 0⟩ (0, 0) [entryA, entryA] hres (by decide) h
  exact ⟨H.1, H.2 rfl⟩

/-- C2: with `min_rating` set (nonzero), every accepted candidate's detail
rating (absent defaulting to 0) is at least `min_rating`; hence every
returned record has rating at least `min_rating`, and when
`min_rating > 0` no returned record lacks a rating. -/
theorem claim2_min_rating_filter (location : String) (geocoder : GeocodeResponse)
    (searchResponse : SearchResponse) (env : PipelineEnv) (crit : SearchCriteria)
    (origin : ℚ × ℚ) (entries : List AcceptedEntry) (m : ℚ)
    (hres : (resolveLocation location geocoder).coord = .ok origin)
    (hm : crit.min_rating = some m) (hm0 : m ≠ 0)
    (h : (get_nearby_restaurants location geocoder searchResponse env crit).outcome =
      .ok entries) :
    (∀ e ∈ entries, m ≤ (env.detailsOf e.candidate.place_id).rating.getD 0) ∧
    (∀ r ∈ returnedRecords entries, m ≤ r.rating.getD 0) ∧
    (0 < m → ∀ r ∈ returnedRecords entries, ∃ q, r.rating = some q ∧ m ≤ q) := by
  have hmem := outcome_entries_mem hres h
  have key : ∀ e ∈ entries, m ≤ (env.detailsOf e.candidate.place_id).rating.getD 0 := by
    intro e he
    obtain ⟨c, hc, hp⟩ := hmem e he
    obtain ⟨hrs, -, hcand, -, -⟩ := processCandidate_some_spec hp
    rw [hcand]
    rw [hm] at hrs
    simp [ratingSkip, pyTruthyQ, hm0] at hrs
    exact hrs
  have keyrec : ∀ r ∈ returnedRecords entries, m ≤ r.rating.getD 0 := by
    intro r hr
    obtain ⟨e, he, rfl⟩ := List.mem_map.mp hr
    obtain ⟨c, hc, hp⟩ := hmem e he
    obtain ⟨-, -, hcand, -, hrec⟩ := processCandidate_some_spec hp
    rw [hrec]
    simpa [mkRecord, ← hcand] using key e he
  refine ⟨key, keyrec, ?_⟩
  intro hpos r hr
  have hle := keyrec r hr
  cases hq : r.rating with
  | none => rw [hq] at hle; simp at hle; exact absurd (lt_of_lt_of_le hpos hle) (by simp)
  | some q => exact ⟨q, rfl, by rw [hq] at hle; simpa using hle⟩

/-- Witness for C2: `min_rating = 3` excludes a candidate whose detail
record has no rating field (treated as 0). -/
theorem claim2_witness :
    (∀ e ∈ ([] : List AcceptedEntry),
      (3 : ℚ) ≤ (envA.detailsOf e.candidate.place_id).rating.getD 0) ∧
    (∀ r ∈ returnedRecords ([] : List AcceptedEntry), (3 : ℚ) ≤ r.rating.getD 0) ∧
    ((0 : ℚ) < 3 → ∀ r ∈ returnedRecords ([] : List AcceptedEntry),
      ∃ q, r.rating = some q ∧ (3 : ℚ) ≤ q) :=
  claim2_min_rating_filter "0,0" ⟨"OK", []⟩ ⟨"OK", [candA]⟩ envA
    ⟨some 3, none, 25, false, some 0⟩ (0, 0) [] 3 (by decide) rfl (by decide) (by decide)

/-- With no `max_price` filter, the fate of a candidate (accepted or
skipped) does not depend on the price levels its detail lookup reports:
only the rating field is consulted. -/
lemma processCandidate_cand_eq {env env' : PipelineEnv} {crit : SearchCriteria}
    (hmp : crit.max_price = none)
    (hdist : env'.distFn = env.distFn)
    (hrat : ∀ pid, (env'.detailsOf pid).rating = (env.detailsOf pid).rating)
    (origin : ℚ × ℚ) (c : PlaceCandidate) :
    (processCandidate env' crit origin c).map (fun e => e.candidate) =
      (processCandidate env crit origin c).map (fun e => e.candidate) := by
  have hr : ratingSkip crit.min_rating (env'.detailsOf c.place_id) =
      ratingSkip crit.min_rating (env.detailsOf c.place_id) := by
    simp [ratingSkip, hrat]
  simp only [processCandidate, hmp, priceSkip_none, hr, hdist]
  split <;> simp

lemma searchLoop_cand_eq {env env' : PipelineEnv} {crit : SearchCriteria}
    (hmp : crit.max_price = none)
    (hdist : env'.distFn = env.distFn)
    (hrat : ∀ pid, (env'.detailsOf pid).rating = (env.detailsOf pid).rating)
    (origin : ℚ × ℚ) :
    ∀ (cands : List PlaceCandidate) (accepted : ℕ),
      (searchLoop env' crit origin cands accepted).map (fun e => e.candidate) =
        (searchLoop env crit origin cands accepted).map (fun e => e.candidate) := by
  intro cands
  induction cands with
  | nil => intro accepted; rfl
  | cons c rest ih =>
    intro accepted
    simp only [searchLoop]
    split
    · rfl
    · cases hp : processCandidate env crit origin c with
      | none =>
        cases hq : processCandidate env' crit origin c with
        | none => exact ih accepted
        | some e' =>
          have hpc := processCandidate_cand_eq hmp hdist hrat origin c
          rw [hp, hq] at hpc
          simp at hpc
      | some e =>
        cases hq : processCandidate env' crit origin c with
        | none =>
          have hpc := processCandidate_cand_eq hmp hdist hrat origin c
          rw [hp, hq] at hpc
          simp at hpc
        | some e' =>
          have hpc := processCandidate_cand_eq hmp hdist hrat origin c
          rw [hp, hq] at hpc
          simp only [Option.map_some', Option.some_inj] at hpc
          simp [hpc, ih (accepted + 1)]

/-- C3: with `max_price` set to a tier 1–4, every accepted candidate's
detail record carries a price tier, and that tier is at most `max_price`
(an absent tier defaults to 5 and is excluded); with `max_price` unset,
no candidate is excluded on account of its price tier (which candidates
are accepted is independent of the reported price levels). -/
theorem claim3_max_price_filter (location : String) (geocoder : GeocodeResponse)
    (searchResponse : SearchResponse) (env : PipelineEnv) (crit : SearchCriteria)
    (origin : ℚ × ℚ) (entries : List AcceptedEntry)
    (hres : (resolveLocation location geocoder).coord = .ok origin)
    (h : (get_nearby_restaurants location geocoder searchResponse env crit).outcome =
      .ok entries) :
    (∀ p, crit.max_price = some p → 1 ≤ p → p ≤ 4 →
      ∀ e ∈ entries,
        ∃ q, (env.detailsOf e.candidate.place_id).price_level = some q ∧ q ≤ p) ∧
    (crit.max_price = none → ∀ altPrice : String → Option ℤ,
      ((get_nearby_restaurants location geocoder searchResponse
          { env with detailsOf := fun pid =>
              { env.detailsOf pid with price_level := altPrice pid } } crit).outcome).map
        (List.map (fun e => e.candidate)) =
      ((get_nearby_restaurants location geocoder searchResponse env crit).outcome).map
        (List.map (fun e => e.candidate))) := by
  constructor
  · intro p hp h1 h4 e he
    obtain ⟨c, hc, hpc⟩ := outcome_entries_mem hres h e he
    obtain ⟨-, hps, hcand, -, -⟩ := processCandidate_some_spec hpc
    rw [hcand]
    rw [hp] at hps
    have hp0 : p ≠ 0 := by omega
    simp [priceSkip, pyTruthyZ, hp0, not_lt] at hps
    cases hq : (env.detailsOf c.place_id).price_level with
    | none => rw [hq] at hps; simp at hps; omega
    | some q => rw [hq] at hps; simp at hps; exact ⟨q, rfl, hps⟩
  · intro hmp altPrice
    simp only [get_nearby_restaurants, hres]
    by_cases hst : searchResponse.status ≠ "OK"
    · simp [hst]
    · simp only [if_neg hst, Except.map]
      exact congrArg Except.ok
        (@searchLoop_cand_eq env
          { env with detailsOf := fun pid =>
              { env.detailsOf pid with price_level := altPrice pid } }
          crit hmp rfl (fun pid => rfl) origin searchResponse.results 0)

/-- Witness for C3: the spec scenario — a candidate whose details lack a
price tier is excluded under `max_price = 2`; and with `max_price` unset
the accepted candidates do not depend on price levels. -/
theorem claim3_witness :
    (∀ e ∈ ([] : List AcceptedEntry),
      ∃ q, (envA.detailsOf e.candidate.place_id).price_level = some q ∧ q ≤ 2) ∧
    ((get_nearby_restaurants "0,0" ⟨"OK", []⟩ ⟨"OK", [candA]⟩
        { envA with detailsOf := fun pid =>
            { envA.detailsOf pid with price_level := (fun _ => some 3) pid } }
        ⟨none, none, 25, false, some 0⟩).outcome).map (List.map (fun e => e.candidate)) =
      ((get_nearby_restaurants "0,0" ⟨"OK", []⟩ ⟨"OK", [candA]⟩ envA
        ⟨none, none, 25, false, some 0⟩).outcome).map (List.map (fun e => e.candidate)) := by
  have H1 := claim3_max_price_filter "0,0" ⟨"OK", []⟩ ⟨"OK", [candA]⟩ envA
    ⟨none, some 2, 25, false, some 0⟩ (0, 0) [] (by decide) (by decide)
  have H2 := claim3_max_price_filter "0,0" ⟨"OK", []⟩ ⟨"OK", [candA]⟩ envA
    ⟨none, none, 25, false, some 0⟩ (0, 0) [entryA] (by decide) (by
      norm_num [get_nearby_restaurants, searchLoop, processCandidate, ratingSkip,
        priceSkip, etaCondition, mkRecord, pyRound, Rat.floor, envA, candA, entryA,
        dummyDetails, pyTruthyQ, pyTruthyZ,
        show (resolveLocation "0,0" (⟨"OK", []⟩ : GeocodeResponse)).coord = .ok (0, 0)
          from by decide])
  exact ⟨H1.1 2 rfl (by omega) (by omega), H2.2 rfl (fun _ => some 3)⟩

/-- C4: for every accepted candidate, a driving-ETA lookup is performed iff
the ETA flag is set and the threshold is zero/unset or the straight-line
distance strictly exceeds it; otherwise the record's ETA field is `None`,
and when the lookup runs the field holds the Travel-Time Fetcher's
answer. -/
theorem claim4_eta_condition (location : String) (geocoder : GeocodeResponse)
    (searchResponse : SearchResponse) (env : PipelineEnv) (crit : SearchCriteria)
    (origin : ℚ × ℚ) (entries : List AcceptedEntry)
    (hres : (resolveLocation location geocoder).coord = .ok origin)
    (h : (get_nearby_restaurants location geocoder searchResponse env crit).outcome =
      .ok entries) :
    ∀ e ∈ entries,
      (e.etaLookup = true ↔
        (crit.get_eta = true ∧ (pyTruthyZ crit.eta_threshold = false ∨
          ((crit.eta_threshold.getD 0 : ℤ) : ℚ) < env.distFn origin e.candidate.location))) ∧
      (e.etaLookup = false → e.record.drivingEta = none) ∧
      (e.etaLookup = true → e.record.drivingEta = env.etaOf origin e.candidate.location) := by
  intro e he
  obtain ⟨c, hc, hp⟩ := outcome_entries_mem hres h e he
  obtain ⟨-, -, hcand, heta, hrec⟩ := processCandidate_some_spec hp
  subst hcand
  refine ⟨?_, ?_, ?_⟩
  · rw [heta]
    simp [etaCondition, Bool.and_eq_true, Bool.or_eq_true, Bool.not_eq_true',
      decide_eq_true_eq]
  · intro hf
    rw [heta] at hf
    rw [hrec]
    simp [mkRecord, hf]
  · intro ht
    rw [heta] at ht
    rw [hrec]
    simp [mkRecord, ht]

/-- Witness for C4: the spec scenario — candidates at straight-line
distances 400 m and 1200 m, `get_eta = True`, `eta_threshold = 1000`: only
the 1200 m candidate gets an ETA lookup; the 400 m candidate's ETA field
stays `None`. -/
theorem claim4_witness :
    entry400.etaLookup = false ∧ entry400.record.drivingEta = none ∧
    entry1200.etaLookup = true ∧ entry1200.record.drivingEta = some "10 mins" := by
  have hres : (resolveLocation "0,0" (⟨"OK", []⟩ : GeocodeResponse)).coord = .ok (0, 0) := by
    decide
  have h : (get_nearby_restaurants "0,0" ⟨"OK", []⟩
      ⟨"OK", [⟨"a", (400, 0)⟩, ⟨"b", (1200, 0)⟩]⟩ envB
      ⟨none, none, 25, true, some 1000⟩).outcome = .ok [entry400, entry1200] := by
    norm_num [get_nearby_restaurants, hres, searchLoop, processCandidate, ratingSkip,
      priceSkip, etaCondition, mkRecord, pyRound, Rat.floor, envB, entry400, entry1200,
      dummyDetails, pyTruthyQ, pyTruthyZ]
  have H := claim4_eta_condition "0,0" ⟨"OK", []⟩
    ⟨"OK", [⟨"a", (400, 0)⟩, ⟨"b", (1200, 0)⟩]⟩ envB ⟨none, none, 25, true, some 1000⟩
    (0, 0) [entry400, entry1200] hres h
  refine ⟨rfl, (H entry400 (by simp)).2.1 rfl, rfl, ?_⟩
  have h12 := (H entry1200 (by simp)).2.2 rfl
  simpa [envB] using h12

/-! ### Character-class facts -/

lemma isDigit18_digit {c : Char} (h : isDigit18 c = true) : isDigitCh c = true := by
  simp only [isDigit18, Bool.and_eq_true, decide_eq_true_eq] at h
  simp only [isDigitCh, Bool.and_eq_true, decide_eq_true_eq]
  omega

lemma isDigit19_digit {c : Char} (h : isDigit19 c = true) : isDigitCh c = true := by
  simp only [isDigit19, Bool.and_eq_true, decide_eq_true_eq] at h
  simp only [isDigitCh, Bool.and_eq_true, decide_eq_true_eq]
  omega

lemma isDigit17_digit {c : Char} (h : isDigit17 c = true) : isDigitCh c = true := by
  simp only [isDigit17, Bool.and_eq_true, decide_eq_true_eq] at h
  simp only [isDigitCh, Bool.and_eq_true, decide_eq_true_eq]
  omega

lemma digit_ne_comma {c : Char} (h : isDigitCh c = true) : c ≠ ',' := by
  intro heq
  subst heq
  exact absurd h (by decide)

lemma digit_ne_plus {c : Char} (h : isDigitCh c = true) : c ≠ '+' := by
  intro heq
  subst heq
  exact absurd h (by decide)

lemma digit_ne_minus {c : Char} (h : isDigitCh c = true) : c ≠ '-' := by
  intro heq
  subst heq
  exact absurd h (by decide)

lemma isSignCh_elim {c : Char} (h : isSignCh c = true) : c = '-' ∨ c = '+' := by
  simpa [isSignCh] using h

lemma digit_not_space {c : Char} (h : isDigitCh c = true) : isPySpace c = false := by
  by_contra hs
  rw [Bool.not_eq_false] at hs
  simp only [isPySpace, Bool.or_eq_true, decide_eq_true_eq] at hs
  rcases hs with ((((rfl | rfl) | rfl) | rfl) | rfl) | rfl <;> exact absurd h (by decide)

lemma sign_not_space {c : Char} (h : isSignCh c = true) : isPySpace c = false := by
  rcases isSignCh_elim h with rfl | rfl <;> decide

lemma sign_ne_comma {c : Char} (h : isSignCh c = true) : c ≠ ',' := by
  rcases isSignCh_elim h with rfl | rfl <;> decide

lemma space_ne_comma {c : Char} (h : isPySpace c = true) : c ≠ ',' := by
  intro heq
  subst heq
  exact absurd h (by decide)

/-! ### Decomposition of the regex pieces -/

lemma optChar_mem {p : Char → Bool} {s r : List Char} (h : r ∈ optChar p s) :
    r = s ∨ ∃ c, p c = true ∧ s = c :: r := by
  cases s with
  | nil =>
    simp only [optChar, List.mem_singleton] at h
    exact Or.inl (by simp [h])
  | cons c rest =>
    by_cases hp : p c = true
    · simp only [optChar, if_pos hp] at h
      rcases List.mem_cons.mp h with rfl | h2
      · exact Or.inr ⟨c, hp, rfl⟩
      · exact Or.inl (by simpa using h2)
    · simp only [optChar, if_neg hp] at h
      exact Or.inl (by simpa using h)

lemma optChar_sign_decomp {s r : List Char} (h : r ∈ optChar isSignCh s) :
    ∃ sg, s = sg ++ r ∧ SignShape sg := by
  rcases optChar_mem h with rfl | ⟨c, hc, hs⟩
  · exact ⟨[], rfl, Or.inl rfl⟩
  · exact ⟨[c], by rw [hs]; rfl, Or.inr ⟨c, hc, rfl⟩⟩

lemma digitsPlus_mem : ∀ {s r : List Char}, r ∈ digitsPlus s →
    ∃ d, s = d ++ r ∧ d ≠ [] ∧ ∀ c ∈ d, isDigitCh c = true := by
  intro s
  induction s with
  | nil => intro r h; simp [digitsPlus] at h
  | cons c rest ih =>
    intro r h
    by_cases hc : isDigitCh c = true
    · simp only [digitsPlus, if_pos hc] at h
      rcases List.mem_cons.mp h with rfl | h2
      · exact ⟨[c], rfl, by simp, by simpa using hc⟩
      · obtain ⟨d, hseq, hd, hdig⟩ := ih h2
        exact ⟨c :: d, by simp [hseq], by simp, List.forall_mem_cons.mpr ⟨hc, hdig⟩⟩
    · simp [digitsPlus, hc] at h

lemma zerosPlus_mem : ∀ {s r : List Char}, r ∈ zerosPlus s →
    ∃ d, s = d ++ r ∧ d ≠ [] ∧ ∀ c ∈ d, isDigitCh c = true := by
  intro s
  induction s with
  | nil => intro r h; simp [zerosPlus] at h
  | cons c rest ih =>
    intro r h
    by_cases hc : c = '0'
    · subst hc
      simp only [zerosPlus, if_pos rfl] at h
      rcases List.mem_cons.mp h with rfl | h2
      · exact ⟨['0'], rfl, by simp, by decide⟩
      · obtain ⟨d, hseq, hd, hdig⟩ := ih h2
        exact ⟨'0' :: d, by simp [hseq], by simp,
          List.forall_mem_cons.mpr ⟨by decide, hdig⟩⟩
    · simp [zerosPlus, hc] at h

lemma optFrac_mem {s r : List Char} (h : r ∈ optFrac s) :
    r = s ∨ ∃ d, s = '.' :: (d ++ r) ∧ d ≠ [] ∧ ∀ c ∈ d, isDigitCh c = true := by
  simp only [optFrac] at h
  rcases List.mem_cons.mp h with rfl | h2
  · exact Or.inl rfl
  · right
    cases s with
    | nil => simp at h2
    | cons c rest =>
      change r ∈ (if c = '.' then digitsPlus rest else []) at h2
      by_cases hc : c = '.'
      · subst hc
        rw [if_pos rfl] at h2
        obtain ⟨d, hseq, hd, hdig⟩ := digitsPlus_mem h2
        exact ⟨d, by rw [hseq], hd, hdig⟩
      · rw [if_neg hc] at h2
        simp at h2

lemma optZeroFrac_mem {s r : List Char} (h : r ∈ optZeroFrac s) :
    r = s ∨ ∃ d, s = '.' :: (d ++ r) ∧ d ≠ [] ∧ ∀ c ∈ d, isDigitCh c = true := by
  simp only [optZeroFrac] at h
  rcases List.mem_cons.mp h with rfl | h2
  · exact Or.inl rfl
  · right
    cases s with
    | nil => simp at h2
    | cons c rest =>
      change r ∈ (if c = '.' then zerosPlus rest else []) at h2
      by_cases hc : c = '.'
      · subst hc
        rw [if_pos rfl] at h2
        obtain ⟨d, hseq, hd, hdig⟩ := zerosPlus_mem h2
        exact ⟨d, by rw [hseq], hd, hdig⟩
      · rw [if_neg hc] at h2
        simp at h2

lemma latIntPart_mem {s r : List Char} (h : r ∈ latIntPart s) :
    ∃ d, s = d ++ r ∧ d ≠ [] ∧ ∀ c ∈ d, isDigitCh c = true := by
  simp only [latIntPart, List.mem_flatMap] at h
  obtain ⟨r0, hr0, hmem⟩ := h
  cases r0 with
  | nil => simp at hmem
  | cons c rest =>
    change r ∈ (if isDigitCh c = true then [rest] else []) at hmem
    by_cases hc : isDigitCh c = true
    · rw [if_pos hc] at hmem
      rw [List.mem_singleton] at hmem
      subst hmem
      rcases optChar_mem hr0 with heq | ⟨c18, hc18, hs⟩
      · exact ⟨[c], by simp [← heq], by simp, by simpa using hc⟩
      · exact ⟨[c18, c], by simp [hs], by simp,
          List.forall_mem_cons.mpr ⟨isDigit18_digit hc18,
            List.forall_mem_cons.mpr ⟨hc, by simp⟩⟩⟩
    · rw [if_neg hc] at hmem
      simp at hmem

lemma latBody_mem {s r : List Char} (h : r ∈ latBody s) :
    ∃ d, s = d ++ r ∧ NumShape d := by
  simp only [latBody, List.mem_append] at h
  rcases h with h | h
  · rw [List.mem_flatMap] at h
    obtain ⟨m, hm, hr⟩ := h
    obtain ⟨d, hseq, hd, hdig⟩ := latIntPart_mem hm
    rcases optFrac_mem hr with rfl | ⟨fd, hseq2, hfd, hfdig⟩
    · exact ⟨d, hseq, Or.inl ⟨hd, hdig⟩⟩
    · refine ⟨d ++ '.' :: fd, ?_, Or.inr ⟨d, fd, rfl, hd, hdig, hfd, hfdig⟩⟩
      rw [hseq, hseq2]
      simp
  · cases s with
    | nil => simp at h
    | cons c s1 =>
      cases s1 with
      | nil => simp at h
      | cons d s2 =>
        change r ∈ (if c = '9' ∧ d = '0' then optZeroFrac s2 else []) at h
        by_cases h90 : c = '9' ∧ d = '0'
        · obtain ⟨rfl, rfl⟩ := h90
          rw [if_pos ⟨rfl, rfl⟩] at h
          rcases optZeroFrac_mem h with rfl | ⟨zd, hseq, hzd, hzdig⟩
          · exact ⟨['9', '0'], rfl, Or.inl ⟨by simp, by decide⟩⟩
          · refine ⟨'9' :: '0' :: '.' :: zd, ?_,
              Or.inr ⟨['9', '0'], zd, rfl, by simp, by decide, hzd, hzdig⟩⟩
            simp [hseq]
        · rw [if_neg h90] at h
          simp at h

lemma lonIntPart_mem {s r : List Char} (h : r ∈ lonIntPart s) :
    ∃ d, s = d ++ r ∧ d ≠ [] ∧ ∀ c ∈ d, isDigitCh c = true := by
  simp only [lonIntPart, List.mem_append] at h
  rcases h with h | h
  · cases s with
    | nil => simp at h
    | cons a s1 =>
      cases s1 with
      | nil => simp at h
      | cons c s2 =>
        cases s2 with
        | nil => simp at h
        | cons d s3 =>
          change r ∈ (if a = '1' ∧ isDigit17 c = true ∧ isDigitCh d = true
            then [s3] else []) at h
          by_cases h17 : a = '1' ∧ isDigit17 c = true ∧ isDigitCh d = true
          · obtain ⟨rfl, h17c, h17d⟩ := h17
            rw [if_pos ⟨rfl, h17c, h17d⟩] at h
            rw [List.mem_singleton] at h
            subst h
            exact ⟨['1', c, d], rfl, by simp,
              List.forall_mem_cons.mpr ⟨by decide,
                List.forall_mem_cons.mpr ⟨isDigit17_digit h17c,
                  List.forall_mem_cons.mpr ⟨h17d, by simp⟩⟩⟩⟩
          · rw [if_neg h17] at h
            simp at h
  · rw [List.mem_flatMap] at h
    obtain ⟨r0, hr0, hmem⟩ := h
    cases r0 with
    | nil => simp at hmem
    | cons c rest =>
      change r ∈ (if isDigitCh c = true then [rest] else []) at hmem
      by_cases hc : isDigitCh c = true
      · rw [if_pos hc] at hmem
        rw [List.mem_singleton] at hmem
        subst hmem
        rcases optChar_mem hr0 with heq | ⟨c19, hc19, hs⟩
        · exact ⟨[c], by simp [← heq], by simp, by simpa using hc⟩
        · exact ⟨[c19, c], by simp [hs], by simp,
            List.forall_mem_cons.mpr ⟨isDigit19_digit hc19,
              List.forall_mem_cons.mpr ⟨hc, by simp⟩⟩⟩
      · rw [if_neg hc] at hmem
        simp at hmem

lemma lonBody_mem {s r : List Char} (h : r ∈ lonBody s) :
    ∃ d, s = d ++ r ∧ NumShape d := by
  simp only [lonBody, List.mem_append] at h
  rcases h with h | h
  · cases s with
    | nil => simp at h
    | cons a s1 =>
      cases s1 with
      | nil => simp at h
      | cons b s2 =>
        cases s2 with
        | nil => simp at h
        | cons c s3 =>
          change r ∈ (if a = '1' ∧ b = '8' ∧ c = '0' then optZeroFrac s3 else []) at h
          by_cases h180 : a = '1' ∧ b = '8' ∧ c = '0'
          · obtain ⟨rfl, rfl, rfl⟩ := h180
            rw [if_pos ⟨rfl, rfl, rfl⟩] at h
            rcases optZeroFrac_mem h with rfl | ⟨zd, hseq, hzd, hzdig⟩
            · exact ⟨['1', '8', '0'], rfl, Or.inl ⟨by simp, by decide⟩⟩
            · refine ⟨'1' :: '8' :: '0' :: '.' :: zd, ?_,
                Or.inr ⟨['1', '8', '0'], zd, rfl, by simp, by decide, hzd, hzdig⟩⟩
              simp [hseq]
          · rw [if_neg h180] at h
            simp at h
  · rw [List.mem_flatMap] at h
    obtain ⟨m, hm, hr⟩ := h
    obtain ⟨d, hseq, hd, hdig⟩ := lonIntPart_mem hm
    rcases optFrac_mem hr with rfl | ⟨fd, hseq2, hfd, hfdig⟩
    · exact ⟨d, hseq, Or.inl ⟨hd, hdig⟩⟩
    · refine ⟨d ++ '.' :: fd, ?_, Or.inr ⟨d, fd, rfl, hd, hdig, hfd, hfdig⟩⟩
      rw [hseq, hseq2]
      simp

lemma wsStar_mem : ∀ {s r : List Char}, r ∈ wsStar s →
    ∃ w, s = w ++ r ∧ ∀ c ∈ w, isPySpace c = true := by
  intro s
  induction s with
  | nil =>
    intro r h
    simp only [wsStar, List.mem_singleton] at h
    exact ⟨[], by simp [h], by simp⟩
  | cons c rest ih =>
    intro r h
    simp only [wsStar] at h
    rcases List.mem_cons.mp h with rfl | h2
    · exact ⟨[], rfl, by simp⟩
    · change r ∈ (if isPySpace c = true then wsStar rest else []) at h2
      by_cases hc : isPySpace c = true
      · rw [if_pos hc] at h2
        obtain ⟨w, hseq, hw⟩ := ih h2
        exact ⟨c :: w, by simp [hseq], List.forall_mem_cons.mpr ⟨hc, hw⟩⟩
      · rw [if_neg hc] at h2
        simp at h2

lemma afterLat_mem {s x : List Char} (h : x ∈ afterLat s) :
    ∃ rest, s = ',' :: rest ∧
      x ∈ ((wsStar rest).flatMap (optChar isSignCh)).flatMap lonBody := by
  cases s with
  | nil => simp [afterLat] at h
  | cons c rest =>
    change x ∈ (if c = ',' then
      ((wsStar rest).flatMap (optChar isSignCh)).flatMap lonBody else []) at h
    by_cases hc : c = ','
    · subst hc
      rw [if_pos rfl] at h
      exact ⟨rest, rfl, h⟩
    · rw [if_neg hc] at h
      simp at h

lemma atEnd_elim {s : List Char} (h : atEnd s = true) : s = [] ∨ s = ['\n'] := by
  simpa [atEnd] using h

/-! ### Shape facts and successful float parsing -/

lemma numShape_head_digit {pre : List Char} (h : NumShape pre) :
    ∃ c rest, pre = c :: rest ∧ isDigitCh c = true := by
  rcases h with ⟨hne, hdig⟩ | ⟨ip, fp, rfl, hip, hipd, -, -⟩
  · cases pre with
    | nil => exact absurd rfl hne
    | cons c rest => exact ⟨c, rest, rfl, hdig c (by simp)⟩
  · cases ip with
    | nil => exact absurd rfl hip
    | cons c rest => exact ⟨c, rest ++ '.' :: fp, by simp, hipd c (by simp)⟩

lemma numShape_last_digit {pre : List Char} (h : NumShape pre) :
    ∃ c rest, pre.reverse = c :: rest ∧ isDigitCh c = true := by
  rcases h with ⟨hne, hdig⟩ | ⟨ip, fp, rfl, hip, hipd, hfp, hfpd⟩
  · cases hrev : pre.reverse with
    | nil => exact absurd (by simpa using congrArg List.reverse hrev) hne
    | cons c rest =>
      refine ⟨c, rest, rfl, hdig c ?_⟩
      rw [← List.mem_reverse, hrev]
      simp
  · have hsplit : (ip ++ '.' :: fp).reverse = fp.reverse ++ '.' :: ip.reverse := by
      simp
    cases hfr : fp.reverse with
    | nil => exact absurd (by simpa using congrArg List.reverse hfr) hfp
    | cons c rest =>
      refine ⟨c, rest ++ '.' :: ip.reverse, ?_, ?_⟩
      · rw [hsplit, hfr]
        simp
      · have : c ∈ fp := by
          rw [← List.mem_reverse, hfr]
          simp
        exact hfpd c this

lemma numShape_no_comma {pre : List Char} (h : NumShape pre) : ∀ c ∈ pre, c ≠ ',' := by
  rcases h with ⟨-, hdig⟩ | ⟨ip, fp, rfl, -, hipd, -, hfpd⟩
  · exact fun c hc => digit_ne_comma (hdig c hc)
  · intro c hc
    rcases List.mem_append.mp hc with hc | hc
    · exact digit_ne_comma (hipd c hc)
    · rcases List.mem_cons.mp hc with rfl | hc
      · decide
      · exact digit_ne_comma (hfpd c hc)

lemma signShape_no_comma {sg : List Char} (h : SignShape sg) : ∀ c ∈ sg, c ≠ ',' := by
  rcases h with rfl | ⟨c, hc, rfl⟩
  · simp
  · intro x hx
    rw [List.mem_singleton] at hx
    subst hx
    exact sign_ne_comma hc

lemma takeWhile_all {p : Char → Bool} :
    ∀ {l : List Char}, (∀ c ∈ l, p c = true) → l.takeWhile p = l := by
  intro l
  induction l with
  | nil => intro h; rfl
  | cons c rest ih =>
    intro h
    rw [List.takeWhile_cons, if_pos (h c (by simp))]
    rw [ih (fun x hx => h x (by simp [hx]))]

lemma dropWhile_all {p : Char → Bool} :
    ∀ {l : List Char}, (∀ c ∈ l, p c = true) → l.dropWhile p = [] := by
  intro l
  induction l with
  | nil => intro h; rfl
  | cons c rest ih =>
    intro h
    rw [List.dropWhile_cons, if_pos (h c (by simp))]
    exact ih (fun x hx => h x (by simp [hx]))

lemma dropWhile_cons_neg {p : Char → Bool} {c : Char} {l : List Char} (h : p c = false) :
    (c :: l).dropWhile p = c :: l := by
  rw [List.dropWhile_cons, if_neg (by simp [h])]

lemma takeWhile_append_stop {p : Char → Bool} {x : Char} {t : List Char} (hx : p x = false) :
    ∀ {l : List Char}, (∀ c ∈ l, p c = true) → (l ++ x :: t).takeWhile p = l := by
  intro l
  induction l with
  | nil =>
    intro h
    rw [List.nil_append, List.takeWhile_cons, if_neg (by simp [hx])]
  | cons c rest ih =>
    intro h
    rw [List.cons_append, List.takeWhile_cons, if_pos (h c (by simp))]
    rw [ih (fun y hy => h y (by simp [hy]))]

lemma dropWhile_append_stop {p : Char → Bool} {x : Char} {t : List Char} (hx : p x = false) :
    ∀ {l : List Char}, (∀ c ∈ l, p c = true) → (l ++ x :: t).dropWhile p = x :: t := by
  intro l
  induction l with
  | nil =>
    intro h
    rw [List.nil_append]
    exact dropWhile_cons_neg hx
  | cons c rest ih =>
    intro h
    rw [List.cons_append, List.dropWhile_cons, if_pos (h c (by simp))]
    exact ih (fun y hy => h y (by simp [hy]))

lemma dropWhile_append_all {p : Char → Bool} {l : List Char} :
    ∀ {w : List Char}, (∀ c ∈ w, p c = true) →
      (w ++ l).dropWhile p = l.dropWhile p := by
  intro w
  induction w with
  | nil => intro h; rfl
  | cons c rest ih =>
    intro h
    rw [List.cons_append, List.dropWhile_cons, if_pos (h c (by simp))]
    exact ih (fun y hy => h y (by simp [hy]))

lemma parseDec_of_numShape {pre : List Char} (h : NumShape pre) :
    ∃ q, parseDec pre = some q := by
  rcases h with ⟨hne, hdig⟩ | ⟨ip, fp, rfl, hip, hipd, hfp, hfpd⟩
  · refine ⟨(digitsVal pre : ℚ), ?_⟩
    simp only [parseDec, dropWhile_all hdig, takeWhile_all hdig]
    simp [hne]
  · refine ⟨(digitsVal ip : ℚ) + (digitsVal fp : ℚ) / (10 : ℚ) ^ fp.length, ?_⟩
    have htw := @takeWhile_append_stop isDigitCh '.' fp (by decide) ip hipd
    have hdw := @dropWhile_append_stop isDigitCh '.' fp (by decide) ip hipd
    simp only [parseDec, htw, hdw]
    rw [if_pos ⟨by trivial, List.all_eq_true.mpr hfpd, Or.inl hip⟩]

lemma parseSigned_of_numShape {pre : List Char} (h : NumShape pre) :
    ∃ q, parseSigned pre = some q := by
  obtain ⟨c, rest, hpre, hc⟩ := numShape_head_digit h
  obtain ⟨q, hq⟩ := parseDec_of_numShape h
  refine ⟨q, ?_⟩
  rw [hpre]
  simp only [parseSigned]
  rw [if_neg (digit_ne_plus hc), if_neg (digit_ne_minus hc), ← hpre]
  exact hq

lemma parseSigned_sign_num {sg pre : List Char} (hsg : SignShape sg) (h : NumShape pre) :
    ∃ q, parseSigned (sg ++ pre) = some q := by
  rcases hsg with rfl | ⟨c, hc, rfl⟩
  · simpa using parseSigned_of_numShape h
  · obtain ⟨q, hq⟩ := parseDec_of_numShape h
    rcases isSignCh_elim hc with rfl | rfl
    · refine ⟨-q, ?_⟩
      rw [List.singleton_append]
      simp only [parseSigned]
      rw [if_neg (by decide), if_pos (by trivial), hq]
      rfl
    · refine ⟨q, ?_⟩
      rw [List.singleton_append]
      simp only [parseSigned]
      rw [if_pos (by trivial)]
      exact hq

lemma stripPyWs_concrete {w t core : List Char}
    (hw : ∀ c ∈ w, isPySpace c = true) (ht : ∀ c ∈ t, isPySpace c = true)
    (hhead : ∃ c rest, core = c :: rest ∧ isPySpace c = false)
    (hlast : ∃ c rest, core.reverse = c :: rest ∧ isPySpace c = false) :
    stripPyWs (w ++ core ++ t) = core := by
  obtain ⟨c0, r0, hcore, hc0⟩ := hhead
  obtain ⟨c1, r1, hrev, hc1⟩ := hlast
  simp only [stripPyWs]
  rw [List.append_assoc, dropWhile_append_all hw]
  have h1 : (core ++ t).dropWhile isPySpace = core ++ t := by
    rw [hcore, List.cons_append]
    exact dropWhile_cons_neg hc0
  rw [h1, List.reverse_append]
  rw [dropWhile_append_all (fun c hcm => ht c (List.mem_reverse.mp hcm))]
  rw [hrev, dropWhile_cons_neg hc1, ← hrev, List.reverse_reverse]

lemma pyFloat_ws_sign_num {w sg pre t : List Char}
    (hw : ∀ c ∈ w, isPySpace c = true) (ht : ∀ c ∈ t, isPySpace c = true)
    (hsg : SignShape sg) (h : NumShape pre) :
    ∃ q, pyFloat (w ++ (sg ++ pre) ++ t) = some q := by
  have hhead : ∃ c rest, (sg ++ pre) = c :: rest ∧ isPySpace c = false := by
    obtain ⟨c0, r0, hpre, hc0⟩ := numShape_head_digit h
    rcases hsg with rfl | ⟨cs, hcs, rfl⟩
    · exact ⟨c0, r0, by simp [hpre], digit_not_space hc0⟩
    · exact ⟨cs, pre, by simp, sign_not_space hcs⟩
  have hlast : ∃ c rest, (sg ++ pre).reverse = c :: rest ∧ isPySpace c = false := by
    obtain ⟨c1, r1, hrev, hc1⟩ := numShape_last_digit h
    refine ⟨c1, r1 ++ sg.reverse, ?_, digit_not_space hc1⟩
    rw [List.reverse_append, hrev]
    simp
  obtain ⟨q, hq⟩ := parseSigned_sign_num hsg h
  refine ⟨q, ?_⟩
  simp only [pyFloat]
  rw [stripPyWs_concrete hw ht hhead hlast]
  exact hq

/-! ### Splitting a matched string at its unique comma -/

lemma splitOnChar_no_sep {sep : Char} :
    ∀ {l : List Char}, (∀ c ∈ l, c ≠ sep) → splitOnChar sep l = [l] := by
  intro l
  induction l with
  | nil => intro h; rfl
  | cons c rest ih =>
    intro h
    simp only [splitOnChar, if_neg (h c (by simp))]
    rw [ih (fun x hx => h x (by simp [hx]))]

lemma splitOnChar_append_sep {sep : Char} {b : List Char} :
    ∀ {a : List Char}, (∀ c ∈ a, c ≠ sep) →
      splitOnChar sep (a ++ sep :: b) = a :: splitOnChar sep b := by
  intro a
  induction a with
  | nil =>
    intro h
    simp [splitOnChar]
  | cons c a' ih =>
    intro h
    simp only [List.cons_append, splitOnChar, if_neg (h c (by simp)), List.append_eq]
    rw [ih (fun x hx => h x (by simp [hx]))]

/-- Every string the coordinate regex accepts parses successfully as a
pair of floats: the split has exactly two pieces and Python `float`
accepts both. -/
lemma is_coordinate_parses {location : String} (h : is_coordinate location = true) :
    ∃ a b, parseCoordinate location = some (a, b) := by
  simp only [is_coordinate, List.any_eq_true] at h
  obtain ⟨rf, hrf, hend⟩ := h
  rw [List.mem_flatMap] at hrf
  obtain ⟨r2, hr2, hrf⟩ := hrf
  rw [List.mem_flatMap] at hr2
  obtain ⟨r1, hr1, hr2⟩ := hr2
  obtain ⟨rest3, hc, hrf⟩ := afterLat_mem hrf
  rw [List.mem_flatMap] at hrf
  obtain ⟨r5, hr5, hrf⟩ := hrf
  rw [List.mem_flatMap] at hr5
  obtain ⟨rw4, hw4, hr5⟩ := hr5
  obtain ⟨sg1, hseq1, hsg1⟩ := optChar_sign_decomp hr1
  obtain ⟨latpre, hlat, hlatshape⟩ := latBody_mem hr2
  obtain ⟨w, hws, hwall⟩ := wsStar_mem hw4
  obtain ⟨sg2, hseq2, hsg2⟩ := optChar_sign_decomp hr5
  obtain ⟨lonpre, hlon, hlonshape⟩ := lonBody_mem hrf
  have htail : ∀ c ∈ rf, isPySpace c = true := by
    rcases atEnd_elim hend with rfl | rfl
    · simp
    · intro c hcm
      rw [List.mem_singleton] at hcm
      subst hcm
      decide
  have hloc : location.toList =
      (sg1 ++ latpre) ++ ',' :: (w ++ (sg2 ++ lonpre) ++ rf) := by
    rw [hseq1, hlat, hc, hws, hseq2, hlon]
    simp
  have hnc1 : ∀ c ∈ sg1 ++ latpre, c ≠ ',' := by
    intro c hcm
    rcases List.mem_append.mp hcm with hcm | hcm
    · exact signShape_no_comma hsg1 c hcm
    · exact numShape_no_comma hlatshape c hcm
  have hnc2 : ∀ c ∈ w ++ (sg2 ++ lonpre) ++ rf, c ≠ ',' := by
    intro c hcm
    rcases List.mem_append.mp hcm with hcm | hcm
    · rcases List.mem_append.mp hcm with hcm | hcm
      · exact space_ne_comma (hwall c hcm)
      · rcases List.mem_append.mp hcm with hcm | hcm
        · exact signShape_no_comma hsg2 c hcm
        · exact numShape_no_comma hlonshape c hcm
    · exact space_ne_comma (htail c hcm)
  have hsplit : splitOnChar ',' location.toList =
      [sg1 ++ latpre, w ++ (sg2 ++ lonpre) ++ rf] := by
    rw [hloc, splitOnChar_append_sep hnc1, splitOnChar_no_sep hnc2]
  have hq1 : ∃ q, pyFloat (sg1 ++ latpre) = some q := by
    have := pyFloat_ws_sign_num (w := []) (t := []) (by simp) (by simp) hsg1 hlatshape
    simpa using this
  have hq2 : ∃ q, pyFloat (w ++ (sg2 ++ lonpre) ++ rf) = some q :=
    pyFloat_ws_sign_num hwall htail hsg2 hlonshape
  obtain ⟨q1, hq1⟩ := hq1
  obtain ⟨q2, hq2⟩ := hq2
  refine ⟨q1, q2, ?_⟩
  simp only [parseCoordinate, hsplit, List.map_cons, List.map_nil, hq1, hq2]

/-- C5: a location string matching the coordinate-literal pattern is
parsed directly — the geocoding collaborator is never invoked (zero
geocode calls, whatever the geocoder would answer), and the resolved
coordinate is the parsed pair. -/
theorem claim5_coordinate_literal (location : String) (geocoder : GeocodeResponse)
    (h : is_coordinate location = true) :
    (resolveLocation location geocoder).geocodeCalls = 0 ∧
    (∃ q, parseCoordinate location = some q ∧
      (resolveLocation location geocoder).coord = .ok q) ∧
    (∀ (searchResponse : SearchResponse) (env : PipelineEnv) (crit : SearchCriteria),
      (get_nearby_restaurants location geocoder searchResponse env crit).geocodeCalls = 0) := by
  have hcalls : (resolveLocation location geocoder).geocodeCalls = 0 := by
    simp [resolveLocation, h]
  refine ⟨hcalls, ?_, ?_⟩
  · obtain ⟨a, b, hab⟩ := is_coordinate_parses h
    exact ⟨(a, b), hab, by simp [resolveLocation, h, hab]⟩
  · intro searchResponse env crit
    simpa [get_nearby_restaurants] using hcalls

/-- Witness for C5: the spec scenario — `"40.7128,-74.0060"` resolves to
the coordinate (40.7128, -74.0060) with zero geocoding calls, end to
end. -/
theorem claim5_witness :
    (resolveLocation "40.7128,-74.0060" ⟨"REQUEST_DENIED", []⟩).geocodeCalls = 0 ∧
    (resolveLocation "40.7128,-74.0060" ⟨"REQUEST_DENIED", []⟩).coord =
      .ok (40.7128, -74.0060) ∧
    (get_nearby_restaurants "40.7128,-74.0060" ⟨"REQUEST_DENIED", []⟩ ⟨"OK", []⟩ envA
      {}).geocodeCalls = 0 := by
  have h : is_coordinate "40.7128,-74.0060" = true := by decide
  have hsplit : splitOnChar ',' "40.7128,-74.0060".toList =
      [['4', '0', '.', '7', '1', '2', '8'], ['-', '7', '4', '.', '0', '0', '6', '0']] := by
    decide
  have hf1 : pyFloat ['4', '0', '.', '7', '1', '2', '8'] = some 40.7128 := by
    have hs : stripPyWs ['4', '0', '.', '7', '1', '2', '8'] =
        ['4', '0', '.', '7', '1', '2', '8'] := by decide
    have ht : List.takeWhile isDigitCh ['4', '0', '.', '7', '1', '2', '8'] = ['4', '0'] := by
      decide
    have hd : List.dropWhile isDigitCh ['4', '0', '.', '7', '1', '2', '8'] =
        ['.', '7', '1', '2', '8'] := by decide
    simp only [pyFloat, hs, parseSigned]
    rw [if_neg (by decide), if_neg (by decide)]
    simp only [parseDec, ht, hd]
    rw [if_pos (by decide)]
    rw [show digitsVal ['4', '0'] = 40 from by decide,
      show digitsVal ['7', '1', '2', '8'] = 7128 from by decide]
    norm_num
  have hf2 : pyFloat ['-', '7', '4', '.', '0', '0', '6', '0'] = some (-74.0060) := by
    have hs : stripPyWs ['-', '7', '4', '.', '0', '0', '6', '0'] =
        ['-', '7', '4', '.', '0', '0', '6', '0'] := by decide
    have ht : List.takeWhile isDigitCh ['7', '4', '.', '0', '0', '6', '0'] = ['7', '4'] := by
      decide
    have hd : List.dropWhile isDigitCh ['7', '4', '.', '0', '0', '6', '0'] =
        ['.', '0', '0', '6', '0'] := by decide
    have hpd : parseDec ['7', '4', '.', '0', '0', '6', '0'] = some 74.006 := by
      simp only [parseDec, ht, hd]
      rw [if_pos (by decide)]
      rw [show digitsVal ['7', '4'] = 74 from by decide,
        show digitsVal ['0', '0', '6', '0'] = 60 from by decide]
      norm_num
    simp only [pyFloat, hs, parseSigned]
    rw [if_neg (by decide), if_pos (by trivial), hpd]
    norm_num
  have hpar : parseCoordinate "40.7128,-74.0060" = some (40.7128, -74.0060) := by
    simp only [parseCoordinate, hsplit, List.map_cons, List.map_nil, hf1, hf2]
  refine ⟨(claim5_coordinate_literal _ ⟨"REQUEST_DENIED", []⟩ h).1, ?_,
    (claim5_coordinate_literal _ ⟨"REQUEST_DENIED", []⟩ h).2.2 ⟨"OK", []⟩ envA {}⟩
  simp [resolveLocation, h, hpar]

end NomadDiner
